import Mathlib

/-!
Verification of the SANO emulator core against its design specification.

The C++ sources are shallowly embedded: machine bytes are `Nat` values, a
`uint8_t` parameter is truncated with `% 256` at the call boundary, and
`uint32_t` subtraction wraps modulo `2 ^ 32`, exactly as the source does.
A 65C816 `Address(bank, offset)` is identified with its flat 24-bit form
`bank <<< 16 ||| offset`; bus-device functions below take that flat
address.  Byte arrays are modelled as functions `Nat → Nat` together with
a `size` field; the sources index only below `size`, and well-formedness
hypotheses (`data i < 256`) stand in for the `uint8_t` element type.
-/

namespace SANO

/-- Wrap-around `uint32_t` subtraction `a - b`, as the sources compute
`flatAddr - baseAddress` on unsigned 32-bit integers. -/
def sub32 (a b : Nat) : Nat :=
  (a % 4294967296 + (4294967296 - b % 4294967296)) % 4294967296

theorem sub32_eq (a b : Nat) (hb : b ≤ a) (ha : a < 4294967296) :
    sub32 a b = a - b := by
  unfold sub32
  omega

/-- Flat form of `Address(bank, offset)`: the constructor narrows to a
`uint8_t` bank and a `uint16_t` offset, and the devices recompute
`flatAddr = (bank << 16) | offset`. -/
def addrFlat (bank offset : Nat) : Nat :=
  ((bank % 256) <<< 16) ||| (offset % 65536)

theorem addrFlat_eq (bank offset : Nat) :
    addrFlat bank offset = (bank % 256) * 65536 + offset % 65536 := by
  unfold addrFlat
  rw [Nat.shiftLeft_eq]
  have h : offset % 65536 < 2 ^ 16 := by
    have := Nat.mod_lt offset (y := 65536) (by norm_num)
    simpa using this
  calc (bank % 256) * 2 ^ 16 ||| offset % 65536
      = 2 ^ 16 * (bank % 256) ||| offset % 65536 := by ring_nf
    _ = 2 ^ 16 * (bank % 256) + offset % 65536 := (Nat.mul_add_lt_is_or h _).symm
    _ = (bank % 256) * 65536 + offset % 65536 := by ring

theorem and_ffffff (a : Nat) : a &&& 0xFFFFFF = a % 16777216 := by
  have h : (0xFFFFFF : Nat) = 2 ^ 24 - 1 := by norm_num
  rw [h, Nat.and_pow_two_sub_one_eq_mod]

/-! ### RAM (src/core/memory/ram.h, ram.cpp)

A byte vector of `size` bytes mapped at `baseAddress`. -/

structure RAM where
  baseAddress : Nat
  size : Nat
  data : Nat → Nat

/-- `RAM::readByte` (ram.cpp line 14): returns the byte at offset
`flatAddr - baseAddress`, and `0xFF` when the offset is out of bounds. -/
def RAM.readByte (ram : RAM) (flatAddr : Nat) : Nat :=
  let offset := sub32 flatAddr ram.baseAddress
  if offset < ram.size then ram.data offset else 0xFF

/-- `RAM::storeByte` (ram.cpp line 29): stores the byte at offset
`flatAddr - baseAddress`; out-of-bounds writes are dropped. -/
def RAM.storeByte (ram : RAM) (flatAddr value : Nat) : RAM :=
  let offset := sub32 flatAddr ram.baseAddress
  if offset < ram.size then
    { ram with data := fun i => if i = offset then value % 256 else ram.data i }
  else ram

/-! ### Mailbox (src/core/memory/mailbox.h, mailbox.cpp)

A bus-mapped byte buffer with a new-data latch and a write-notification
callback.  The mailbox holds no interrupt state of its own: the only
outward effect of a write is the bound `writeCallback`, whose invocation
count `Mailbox.storeByte` returns. -/

structure Mailbox where
  baseAddress : Nat
  size : Nat
  data : Nat → Nat
  newDataFlag : Bool
  busyFlag : Bool

/-- `Mailbox::readByte` (mailbox.cpp line 16): returns the stored byte and
clears `newDataFlag`; out-of-bounds reads return `0xFF` and leave the
state unchanged. -/
def Mailbox.readByte (m : Mailbox) (flatAddr : Nat) : Nat × Mailbox :=
  let offset := sub32 flatAddr m.baseAddress &&& 0xFFFFFF
  if offset < m.size then (m.data offset, { m with newDataFlag := false })
  else (0xFF, m)

/-- `Mailbox::storeByte` (mailbox.cpp line 34): stores the byte, sets
`newDataFlag`, and runs the bound `writeCallback`; the second component
counts how many times the callback ran during the call. -/
def Mailbox.storeByte (m : Mailbox) (flatAddr value : Nat) : Mailbox × Nat :=
  let offset := sub32 flatAddr m.baseAddress &&& 0xFFFFFF
  if offset < m.size then
    ({ m with
        data := fun i => if i = offset then value % 256 else m.data i,
        newDataFlag := true }, 1)
  else (m, 0)

/-- In-range mailbox accesses hit offset `o` when addressed at
`baseAddress + o`. -/
theorem mailbox_offset (base o : Nat) (h : base + o < 16777216) :
    sub32 (base + o) base &&& 0xFFFFFF = o := by
  rw [and_ffffff, sub32_eq (base + o) base (by omega) (by omega)]
  omega

/-- **C5.** For every Mailbox and in-range offsets: writing a byte stores
it, sets `new_data`, and fires the bound `on_write` callback exactly once,
leaving all other bytes unchanged; a subsequent read of any in-range
offset returns the stored byte there and clears `new_data` without
changing the data.  The mailbox itself raises no interrupt: its only
outward effect is the callback invocation counted here (the interrupt
decision lives in the CPLD handler the callback is bound to). -/
theorem mailbox_write_read_spec (m : Mailbox) (o o' v : Nat)
    (hwf : m.baseAddress + m.size ≤ 16777216)
    (ho : o < m.size) (ho' : o' < m.size) :
    (m.storeByte (m.baseAddress + o) v).1.data o = v % 256 ∧
    (m.storeByte (m.baseAddress + o) v).1.newDataFlag = true ∧
    (m.storeByte (m.baseAddress + o) v).2 = 1 ∧
    (∀ i, i ≠ o → (m.storeByte (m.baseAddress + o) v).1.data i = m.data i) ∧
    ((m.storeByte (m.baseAddress + o) v).1.readByte (m.baseAddress + o')).1 =
      (m.storeByte (m.baseAddress + o) v).1.data o' ∧
    ((m.storeByte (m.baseAddress + o) v).1.readByte (m.baseAddress + o')).2.newDataFlag
      = false ∧
    ((m.storeByte (m.baseAddress + o) v).1.readByte (m.baseAddress + o')).2.data =
      (m.storeByte (m.baseAddress + o) v).1.data := by
  have hoff : sub32 (m.baseAddress + o) m.baseAddress &&& 0xFFFFFF = o :=
    mailbox_offset _ _ (by omega)
  have hoff' : sub32 (m.baseAddress + o') m.baseAddress &&& 0xFFFFFF = o' :=
    mailbox_offset _ _ (by omega)
  simp only [Mailbox.storeByte, Mailbox.readByte, hoff, hoff', if_pos ho, if_pos ho']
  refine ⟨by simp, by trivial, by trivial, ?_, by trivial, by trivial, by trivial⟩
  intro i hi
  simp [hi]

/-- Concrete mailbox for the C5 witness: Mailbox A, 1 KB at `$400000`,
zero-filled. -/
def mbA0 : Mailbox :=
  { baseAddress := 0x400000, size := 1024, data := fun _ => 0,
    newDataFlag := false, busyFlag := false }

/-- Witness for C5 at mailbox A, write offset 2 of value 300, read
offset 7. -/
theorem mailbox_write_read_spec_witness :
    (mbA0.baseAddress + mbA0.size ≤ 16777216 ∧ 2 < mbA0.size ∧ 7 < mbA0.size) ∧
    ((mbA0.storeByte (mbA0.baseAddress + 2) 300).1.data 2 = 300 % 256 ∧
     (mbA0.storeByte (mbA0.baseAddress + 2) 300).1.newDataFlag = true ∧
     (mbA0.storeByte (mbA0.baseAddress + 2) 300).2 = 1 ∧
     (∀ i, i ≠ 2 → (mbA0.storeByte (mbA0.baseAddress + 2) 300).1.data i = mbA0.data i) ∧
     ((mbA0.storeByte (mbA0.baseAddress + 2) 300).1.readByte (mbA0.baseAddress + 7)).1 =
       (mbA0.storeByte (mbA0.baseAddress + 2) 300).1.data 7 ∧
     ((mbA0.storeByte (mbA0.baseAddress + 2) 300).1.readByte
       (mbA0.baseAddress + 7)).2.newDataFlag = false ∧
     ((mbA0.storeByte (mbA0.baseAddress + 2) 300).1.readByte (mbA0.baseAddress + 7)).2.data =
       (mbA0.storeByte (mbA0.baseAddress + 2) 300).1.data) :=
  ⟨⟨by norm_num [mbA0], by norm_num [mbA0], by norm_num [mbA0]⟩,
   mailbox_write_read_spec mbA0 2 7 300 (by norm_num [mbA0]) (by norm_num [mbA0])
     (by norm_num [mbA0])⟩

/-! ### CPLD2 mailbox-A boot handler (src/core/cpld/cpld2_video.cpp)

`CPLD2_Video::onMailboxAWrite` runs synchronously whenever mailbox A is
written (the mailbox `writeCallback` is bound to it in
`Emulator::setupCallbacks`).  Its outward effects go through two
callbacks wired in emulator.cpp: `graphicsCPUReset(false)` deasserts the
Graphics CPU RES pin and sets its program address to `(0, 0)` (lines
497-515), and `mailboxACallback` raises the Graphics CPU IRQ pin
(lines 534-537).  The Graphics CPU is represented by the pin state the
§6.1 CPU contract exposes (`set_res_pin`, `set_irq_pin`,
`set_program_address`). -/

structure CoCpu where
  resPin : Bool
  irqPin : Bool
  pc : Nat × Nat

/-- The state touched by the mailbox-A handler: mailbox A, Graphics RAM,
and the Graphics CPU pins. -/
structure Cpld2Boot where
  mailboxA : Mailbox
  graphicsRAM : RAM
  gfxCpu : CoCpu

/-- The payload-copy loop of `onMailboxAWrite` (cpld2_video.cpp lines
114-119): iteration `i` reads mailbox offset `5 + i` (through
`Address(0x40, 0x0005 + i)`) and stores the byte into Graphics RAM at
`Address(0x00, destAddr + i)`.  `k` counts the remaining iterations. -/
def bootCopyLoop (destAddr : Nat) : Nat → Nat → Mailbox → RAM → Mailbox × RAM
  | 0, _, mb, ram => (mb, ram)
  | k + 1, i, mb, ram =>
    let p := mb.readByte (addrFlat 0x40 (0x0005 + i))
    let ram' := ram.storeByte (addrFlat 0x00 (destAddr + i)) p.1
    bootCopyLoop destAddr k (i + 1) p.2 ram'

/-- `CPLD2_Video::onMailboxAWrite` (cpld2_video.cpp lines 92-143),
with `mailboxA` and `graphicsRAM` attached as the emulator wires them.
Command byte `0x01` runs the boot copy and the reset-release callback
and returns without firing the generic callback; any other command fires
the generic mailbox-A callback (Graphics CPU IRQ). -/
def onMailboxAWrite (s : Cpld2Boot) : Cpld2Boot :=
  let pc := s.mailboxA.readByte (addrFlat 0x40 0x0000)
  if pc.1 = 0x01 then
    let p1 := pc.2.readByte (addrFlat 0x40 0x0001)
    let p2 := p1.2.readByte (addrFlat 0x40 0x0002)
    let destAddr := (p1.1 ||| p2.1 <<< 8) % 65536
    let p3 := p2.2.readByte (addrFlat 0x40 0x0003)
    let p4 := p3.2.readByte (addrFlat 0x40 0x0004)
    let length := (p3.1 ||| p4.1 <<< 8) % 65536
    let q := bootCopyLoop destAddr length 0 p4.2 s.graphicsRAM
    { s with
        mailboxA := q.1, graphicsRAM := q.2,
        gfxCpu := { s.gfxCpu with resPin := false, pc := (0, 0) } }
  else
    { s with
        mailboxA := pc.2,
        gfxCpu := { s.gfxCpu with irqPin := true } }

theorem or16_lt (x y : Nat) (hx : x < 256) (hy : y < 256) :
    x ||| y <<< 8 < 65536 := by
  have hx' : x < 2 ^ 16 := by omega
  have hy' : y <<< 8 < 2 ^ 16 := by rw [Nat.shiftLeft_eq]; omega
  have := Nat.or_lt_two_pow hx' hy'
  omega

/-- Reading mailbox A (base `$400000`, 1 KB) at `Address(0x40, o)` for
`o < 1024` returns the byte at offset `o` and clears the latch. -/
theorem mailboxA_read_at (mb : Mailbox) (o : Nat)
    (hbase : mb.baseAddress = 0x400000) (hsize : mb.size = 1024)
    (ho : o < 1024) :
    mb.readByte (addrFlat 0x40 o) = (mb.data o, { mb with newDataFlag := false }) := by
  have hflat : addrFlat 0x40 o = 0x400000 + o := by
    rw [addrFlat_eq]; omega
  have hoff : sub32 (0x400000 + o) mb.baseAddress &&& 0xFFFFFF = o := by
    rw [hbase]; exact mailbox_offset _ _ (by omega)
  simp only [Mailbox.readByte, hflat, hoff, hsize, if_pos ho]

/-- Behaviour of the copy loop: it copies mailbox bytes `5 + i` onward to
Graphics RAM offsets `destAddr + i` onward, leaves everything else in
Graphics RAM alone, and never changes the mailbox bytes. -/
theorem bootCopyLoop_spec (dest : Nat) (k : Nat) : ∀ (i : Nat) (mb : Mailbox) (ram : RAM),
    mb.baseAddress = 0x400000 → mb.size = 1024 → (∀ j, mb.data j < 256) →
    ram.baseAddress = 0 → ram.size = 0x20000 →
    5 + i + k ≤ 1024 → dest + i + k ≤ 65536 →
    (bootCopyLoop dest k i mb ram).1.data = mb.data ∧
    (∀ a, (bootCopyLoop dest k i mb ram).2.data a =
      if dest + i ≤ a ∧ a < dest + i + k then mb.data (5 + (a - dest))
      else ram.data a) := by
  induction k with
  | zero =>
    intro i mb ram _ _ _ _ _ _ _
    refine ⟨rfl, fun a => ?_⟩
    simp only [bootCopyLoop]
    rw [if_neg (by omega)]
  | succ k ih =>
    intro i mb ram hbase hsize hwf hrbase hrsize hlen hdest
    have hread : mb.readByte (addrFlat 0x40 (0x0005 + i)) =
        (mb.data (5 + i), { mb with newDataFlag := false }) :=
      mailboxA_read_at mb (0x0005 + i) hbase hsize (by omega)
    have hflat : addrFlat 0x00 (dest + i) = dest + i := by
      rw [addrFlat_eq]; omega
    have hstore : ram.storeByte (addrFlat 0x00 (dest + i)) (mb.data (5 + i)) =
        { ram with data := fun a => if a = dest + i then mb.data (5 + i) else ram.data a } := by
      simp only [RAM.storeByte, hflat, hrbase]
      rw [sub32_eq (dest + i) 0 (by omega) (by omega)]
      rw [if_pos (by omega)]
      have hmod : mb.data (5 + i) % 256 = mb.data (5 + i) := Nat.mod_eq_of_lt (hwf _)
      simp [hmod]
    have hrec := ih (i + 1) { mb with newDataFlag := false }
      { ram with data := fun a => if a = dest + i then mb.data (5 + i) else ram.data a }
      hbase hsize hwf hrbase hrsize (by omega) (by omega)
    refine ⟨?_, fun a => ?_⟩
    · simp only [bootCopyLoop, hread, hstore]
      exact hrec.1
    · simp only [bootCopyLoop, hread, hstore]
      rw [hrec.2 a]
      by_cases hmem : dest + (i + 1) ≤ a ∧ a < dest + (i + 1) + k
      · rw [if_pos hmem, if_pos (by omega)]
      · rw [if_neg hmem]
        show (if a = dest + i then mb.data (5 + i) else ram.data a) =
          if dest + i ≤ a ∧ a < dest + i + (k + 1) then mb.data (5 + (a - dest))
          else ram.data a
        by_cases heq : a = dest + i
        · rw [if_pos heq, if_pos (by omega)]
          congr 1
          omega
        · rw [if_neg heq, if_neg (by omega)]

/-- **C1.** When mailbox A is written and its first byte (the command) is
`0x01`, the CPLD2 handler reads the 16-bit little-endian destination from
offsets 1-2 and length from offsets 3-4, copies exactly `len` payload
bytes from mailbox offsets `5 .. 5+len-1` into Graphics RAM at bank 0
starting at the destination offset (all other Graphics RAM bytes
untouched), and invokes the release-graphics-CPU-reset callback, which
deasserts the Graphics CPU RES pin and sets its program address to
`(0, 0)` without touching the IRQ pin; for any other command byte the
handler instead fires the generic mailbox-A callback, raising the
Graphics CPU IRQ pin and copying nothing. -/
theorem cpld2_mailboxA_boot_spec (s : Cpld2Boot)
    (hbase : s.mailboxA.baseAddress = 0x400000) (hsize : s.mailboxA.size = 1024)
    (hwf : ∀ j, s.mailboxA.data j < 256)
    (hrbase : s.graphicsRAM.baseAddress = 0) (hrsize : s.graphicsRAM.size = 0x20000) :
    (s.mailboxA.data 0 = 0x01 →
      ∀ dest len, dest = (s.mailboxA.data 1 ||| s.mailboxA.data 2 <<< 8) →
        len = (s.mailboxA.data 3 ||| s.mailboxA.data 4 <<< 8) →
        5 + len ≤ 1024 → dest + len ≤ 65536 →
        ((∀ j, j < len → (onMailboxAWrite s).graphicsRAM.data (dest + j) =
            s.mailboxA.data (5 + j)) ∧
         (∀ a, a < dest ∨ dest + len ≤ a →
            (onMailboxAWrite s).graphicsRAM.data a = s.graphicsRAM.data a) ∧
         (onMailboxAWrite s).gfxCpu.resPin = false ∧
         (onMailboxAWrite s).gfxCpu.pc = (0, 0) ∧
         (onMailboxAWrite s).gfxCpu.irqPin = s.gfxCpu.irqPin ∧
         (onMailboxAWrite s).mailboxA.data = s.mailboxA.data)) ∧
    (s.mailboxA.data 0 ≠ 0x01 →
      (onMailboxAWrite s).graphicsRAM = s.graphicsRAM ∧
      (onMailboxAWrite s).gfxCpu.irqPin = true ∧
      (onMailboxAWrite s).gfxCpu.resPin = s.gfxCpu.resPin ∧
      (onMailboxAWrite s).gfxCpu.pc = s.gfxCpu.pc ∧
      (onMailboxAWrite s).mailboxA.data = s.mailboxA.data) := by
  have h0 := mailboxA_read_at s.mailboxA 0 hbase hsize (by omega)
  constructor
  · intro hcmd dest len hdest hlen hlen1024 hdest65536
    have h1 := mailboxA_read_at { s.mailboxA with newDataFlag := false } 1
      hbase hsize (by omega)
    have h2 := mailboxA_read_at { s.mailboxA with newDataFlag := false } 2
      hbase hsize (by omega)
    have h3 := mailboxA_read_at { s.mailboxA with newDataFlag := false } 3
      hbase hsize (by omega)
    have h4 := mailboxA_read_at { s.mailboxA with newDataFlag := false } 4
      hbase hsize (by omega)
    have hdestlt : dest < 65536 := by
      rw [hdest]; exact or16_lt _ _ (hwf 1) (hwf 2)
    have hlenlt : len < 65536 := by
      rw [hlen]; exact or16_lt _ _ (hwf 3) (hwf 4)
    have hloop := bootCopyLoop_spec dest len 0
      { s.mailboxA with newDataFlag := false } s.graphicsRAM
      hbase hsize hwf hrbase hrsize (by omega) (by omega)
    have hrw : onMailboxAWrite s =
        { s with
            mailboxA := (bootCopyLoop dest len 0
              { s.mailboxA with newDataFlag := false } s.graphicsRAM).1,
            graphicsRAM := (bootCopyLoop dest len 0
              { s.mailboxA with newDataFlag := false } s.graphicsRAM).2,
            gfxCpu := { s.gfxCpu with resPin := false, pc := (0, 0) } } := by
      simp only [onMailboxAWrite, h0, h1, h2, h3, h4, if_pos hcmd]
      rw [Nat.mod_eq_of_lt (by rw [← hdest]; exact hdestlt),
          Nat.mod_eq_of_lt (by rw [← hlen]; exact hlenlt), ← hdest, ← hlen]
    rw [hrw]
    refine ⟨fun j hj => ?_, fun a ha => ?_, rfl, rfl, rfl, hloop.1⟩
    · rw [hloop.2 (dest + j), if_pos (by omega)]
      have harith : dest + j - dest = j := by omega
      rw [harith]
    · rw [hloop.2 a, if_neg (by omega)]
  · intro hcmd
    have hrw : onMailboxAWrite s =
        { s with
            mailboxA := { s.mailboxA with newDataFlag := false },
            gfxCpu := { s.gfxCpu with irqPin := true } } := by
      simp only [onMailboxAWrite, h0]
      rw [if_neg hcmd]
    rw [hrw]
    exact ⟨rfl, rfl, rfl, rfl, rfl⟩

/-- Boot message of scenario S3: command `0x01`, destination `$1000`,
length 3, payload `DE AD BE`. -/
def bootMsg : Nat → Nat
  | 0 => 0x01
  | 1 => 0x00
  | 2 => 0x10
  | 3 => 0x03
  | 4 => 0x00
  | 5 => 0xDE
  | 6 => 0xAD
  | 7 => 0xBE
  | _ => 0

theorem bootMsg_lt (j : Nat) : bootMsg j < 256 := by
  rcases j with _ | _ | _ | _ | _ | _ | _ | _ | j <;> simp [bootMsg]

/-- Concrete handler state for the C1 witness: mailbox A holding the S3
boot message, zeroed Graphics RAM, Graphics CPU held in reset. -/
def sBoot : Cpld2Boot :=
  { mailboxA := { baseAddress := 0x400000, size := 1024, data := bootMsg,
                  newDataFlag := true, busyFlag := false },
    graphicsRAM := { baseAddress := 0, size := 0x20000, data := fun _ => 0 },
    gfxCpu := { resPin := true, irqPin := false, pc := (0, 0) } }

/-- Witness for C1 on scenario S3. -/
theorem cpld2_mailboxA_boot_spec_witness :
    (sBoot.mailboxA.baseAddress = 0x400000 ∧ sBoot.mailboxA.size = 1024 ∧
     (∀ j, sBoot.mailboxA.data j < 256) ∧
     sBoot.graphicsRAM.baseAddress = 0 ∧ sBoot.graphicsRAM.size = 0x20000) ∧
    ((sBoot.mailboxA.data 0 = 0x01 →
      ∀ dest len, dest = (sBoot.mailboxA.data 1 ||| sBoot.mailboxA.data 2 <<< 8) →
        len = (sBoot.mailboxA.data 3 ||| sBoot.mailboxA.data 4 <<< 8) →
        5 + len ≤ 1024 → dest + len ≤ 65536 →
        ((∀ j, j < len → (onMailboxAWrite sBoot).graphicsRAM.data (dest + j) =
            sBoot.mailboxA.data (5 + j)) ∧
         (∀ a, a < dest ∨ dest + len ≤ a →
            (onMailboxAWrite sBoot).graphicsRAM.data a = sBoot.graphicsRAM.data a) ∧
         (onMailboxAWrite sBoot).gfxCpu.resPin = false ∧
         (onMailboxAWrite sBoot).gfxCpu.pc = (0, 0) ∧
         (onMailboxAWrite sBoot).gfxCpu.irqPin = sBoot.gfxCpu.irqPin ∧
         (onMailboxAWrite sBoot).mailboxA.data = sBoot.mailboxA.data)) ∧
     (sBoot.mailboxA.data 0 ≠ 0x01 →
      (onMailboxAWrite sBoot).graphicsRAM = sBoot.graphicsRAM ∧
      (onMailboxAWrite sBoot).gfxCpu.irqPin = true ∧
      (onMailboxAWrite sBoot).gfxCpu.resPin = sBoot.gfxCpu.resPin ∧
      (onMailboxAWrite sBoot).gfxCpu.pc = sBoot.gfxCpu.pc ∧
      (onMailboxAWrite sBoot).mailboxA.data = sBoot.mailboxA.data)) :=
  ⟨⟨rfl, rfl, fun j => bootMsg_lt j, rfl, rfl⟩,
   cpld2_mailboxA_boot_spec sBoot rfl rfl (fun j => bootMsg_lt j) rfl rfl⟩

/-! ### Machine reset (src/core/emulator.cpp, `Emulator::reset`)

The three CPU cores live behind the §6.1 pin contract
(`set_res_pin(bool)` stores the RES pin level, `set_program_address`
stores the program counter); `Emulator::reset` drives those pins
(emulator.cpp lines 172-226). -/

structure EmulatorCpus where
  mainCPU : CoCpu
  graphicsCPU : CoCpu
  soundCPU : CoCpu

/-- Entry points parsed from the ROM header (cartridge.cpp lines
102-104). -/
structure ROMHeaderEntries where
  mainEntry : Nat
  graphicsEntry : Nat
  soundEntry : Nat

/-- `Emulator::reset` (emulator.cpp lines 172-226), restricted to the CPU
pin state it drives; `loaded` is `cartridge && cartridge->isLoaded()`.
Main CPU: RES pulsed high then low, then PC loaded from the header.
Graphics CPU: RES driven low unconditionally (line 192); when the header
entry point is non-zero, RES is driven low again and PC is loaded; when
it is zero nothing further happens (line 204 only logs a message).
Sound CPU: RES pulsed high then low and PC loaded from the header whether
or not the entry point is zero (lines 208-219). -/
def emulatorReset (loaded : Bool) (hdr : ROMHeaderEntries) (s : EmulatorCpus) :
    EmulatorCpus :=
  let main1 := { s.mainCPU with resPin := false }
  let main2 := if loaded then
      { main1 with pc := (hdr.mainEntry >>> 16, hdr.mainEntry &&& 0xFFFF) }
    else main1
  let gfx0 := { s.graphicsCPU with resPin := false }
  let gfx1 := if loaded then
      (if hdr.graphicsEntry ≠ 0 then
        { gfx0 with
            resPin := false
            pc := (hdr.graphicsEntry >>> 16, hdr.graphicsEntry &&& 0xFFFF) }
      else gfx0)
    else gfx0
  let snd1 := { s.soundCPU with resPin := false }
  let snd2 := if loaded then
      { snd1 with pc := (hdr.soundEntry >>> 16, hdr.soundEntry &&& 0xFFFF) }
    else snd1
  { mainCPU := main2, graphicsCPU := gfx1, soundCPU := snd2 }

/-- Header whose coprocessor entry points are zero (mailbox boot
expected), and a pre-reset pin state with every CPU held in reset. -/
def hdrZero : ROMHeaderEntries :=
  { mainEntry := 0x8000, graphicsEntry := 0, soundEntry := 0 }

def cpusHeld : EmulatorCpus :=
  { mainCPU := { resPin := true, irqPin := false, pc := (0, 0) },
    graphicsCPU := { resPin := true, irqPin := false, pc := (0, 0) },
    soundCPU := { resPin := true, irqPin := false, pc := (0, 0) } }

/-- **C2** (code bug).  With a loaded ROM whose graphics and sound entry
points are zero, `Emulator::reset` nevertheless deasserts the RES pin of
both coprocessors — the graphics branch drives RES low before testing the
entry point and the sound branch pulses RES and loads PC unconditionally
— even when both CPUs started out held in reset.  The spec (and the
in-code log message on the zero-entry path, which prints that the CPU is
held in reset) requires RES to stay asserted until the mailbox boot
command arrives. -/
theorem emulatorReset_zero_entry_releases :
    (emulatorReset true hdrZero cpusHeld).graphicsCPU.resPin = false ∧
    (emulatorReset true hdrZero cpusHeld).soundCPU.resPin = false ∧
    (emulatorReset true hdrZero cpusHeld).soundCPU.pc = (0, 0) ∧
    hdrZero.graphicsEntry = 0 ∧ hdrZero.soundEntry = 0 ∧
    cpusHeld.graphicsCPU.resPin = true ∧ cpusHeld.soundCPU.resPin = true := by
  refine ⟨rfl, rfl, ?_, rfl, rfl, rfl, rfl⟩
  simp [emulatorReset, hdrZero, cpusHeld]

/-! ### Cartridge (src/core/cartridge/cartridge.h, cartridge.cpp)

ROM blob with 16-bank windowed mapping at `$C00000..$FFFFFF`, a bank
register at `$420000`, and optional save RAM at `$700000..$70FFFF`. -/

structure Cartridge where
  romSize : Nat
  rom : Nat → Nat
  saveRAMSize : Nat
  saveRAM : Nat → Nat
  currentBank : Nat

/-- `Cartridge::setBank` (cartridge.cpp line 244): banks at or above
`MAX_BANKS = 16` wrap to 0.  (The `uint8_t` parameter is already a byte
at its single call site, which passes `value & 0x0F`.) -/
def Cartridge.setBank (c : Cartridge) (bank : Nat) : Cartridge :=
  if 16 ≤ bank then { c with currentBank := 0 }
  else { c with currentBank := bank }

/-- `Cartridge::mapAddress` (cartridge.cpp line 260):
`physical = currentBank * 4MB + (addr - $C00000)`. -/
def Cartridge.mapAddress (c : Cartridge) (address : Nat) : Nat :=
  c.currentBank * 0x400000 + (address - 0xC00000)

/-- `Cartridge::readByte` (cartridge.cpp lines 134-181): reset vector,
bank-0 ROM mirror, banked ROM window, save RAM, `0xFF` otherwise.  (The
mirror branch keeps only the reachable `return rom[offset]`; the source
lines after it are dead code.) -/
def Cartridge.readByte (c : Cartridge) (flatAddr : Nat) : Nat :=
  if 0xFFFC ≤ flatAddr ∧ flatAddr ≤ 0xFFFF then
    (if flatAddr < c.romSize then c.rom flatAddr else 0xFF)
  else if 0x8000 ≤ flatAddr ∧ flatAddr ≤ 0xFFFF then
    (if flatAddr < c.romSize then c.rom flatAddr else 0xFF)
  else if 0xC00000 ≤ flatAddr ∧ flatAddr ≤ 0xFFFFFF then
    (if c.mapAddress flatAddr < c.romSize then c.rom (c.mapAddress flatAddr) else 0xFF)
  else if 0x700000 ≤ flatAddr ∧ flatAddr ≤ 0x70FFFF then
    (if flatAddr - 0x700000 < c.saveRAMSize then c.saveRAM (flatAddr - 0x700000)
     else 0xFF)
  else 0xFF

/-- `Cartridge::storeByte` (cartridge.cpp lines 183-201): `$420000`
selects the bank from the low 4 bits of the value; save RAM stores; every
other write is ignored (ROM is read-only). -/
def Cartridge.storeByte (c : Cartridge) (flatAddr value : Nat) : Cartridge :=
  if flatAddr = 0x420000 then c.setBank ((value % 256) &&& 0x0F)
  else if 0x700000 ≤ flatAddr ∧ flatAddr ≤ 0x70FFFF then
    (if flatAddr - 0x700000 < c.saveRAMSize then
      { c with saveRAM := fun i =>
          if i = flatAddr - 0x700000 then value % 256 else c.saveRAM i }
     else c)
  else c

theorem and_0f (a : Nat) : a &&& 0x0F = a % 16 := by
  have h : (0x0F : Nat) = 2 ^ 4 - 1 := by norm_num
  rw [h, Nat.and_pow_two_sub_one_eq_mod]

/-- **C4.** Storing byte `v` to the bank register `$420000` sets
`current_bank` to `v mod 16` and changes nothing else (ROM, save RAM and
their sizes are untouched); afterwards every read in the ROM window
`$C00000..$FFFFFF` returns the ROM byte at physical offset
`(v mod 16) * 4MB + (addr - $C00000)` when that offset is inside the
loaded ROM, and `0xFF` otherwise. -/
theorem cartridge_bank_select_spec (c : Cartridge) (v a : Nat)
    (hv : v < 256) (ha1 : 0xC00000 ≤ a) (ha2 : a ≤ 0xFFFFFF) :
    (c.storeByte 0x420000 v).currentBank = v % 16 ∧
    (c.storeByte 0x420000 v).rom = c.rom ∧
    (c.storeByte 0x420000 v).romSize = c.romSize ∧
    (c.storeByte 0x420000 v).saveRAM = c.saveRAM ∧
    (c.storeByte 0x420000 v).saveRAMSize = c.saveRAMSize ∧
    (c.storeByte 0x420000 v).readByte a =
      (if v % 16 * 0x400000 + (a - 0xC00000) < c.romSize then
        c.rom (v % 16 * 0x400000 + (a - 0xC00000))
       else 0xFF) := by
  have hmask : (v % 256) &&& 0x0F = v % 16 := by
    rw [and_0f]
    omega
  have hstore : c.storeByte 0x420000 v = { c with currentBank := v % 16 } := by
    unfold Cartridge.storeByte
    rw [if_pos rfl, hmask]
    unfold Cartridge.setBank
    rw [if_neg (by omega)]
  rw [hstore]
  refine ⟨rfl, rfl, rfl, rfl, rfl, ?_⟩
  simp only [Cartridge.readByte, Cartridge.mapAddress]
  rw [if_neg (by omega), if_neg (by omega), if_pos (by omega)]

/-- Concrete cartridge for the C4 witness: 8 MB ROM whose byte at
physical offset `0x400000` is `0xBB` (scenario S1 after the bank-1
write). -/
def cart8MB : Cartridge :=
  { romSize := 0x800000,
    rom := fun i => if i = 0x400000 then 0xBB else 0xAA,
    saveRAMSize := 0, saveRAM := fun _ => 0xFF, currentBank := 0 }

/-- Witness for C4: write bank 1, read `$C00000`, observe ROM byte at
physical `0x400000`. -/
theorem cartridge_bank_select_spec_witness :
    ((1 : Nat) < 256 ∧ (0xC00000 : Nat) ≤ 0xC00000 ∧ (0xC00000 : Nat) ≤ 0xFFFFFF) ∧
    ((cart8MB.storeByte 0x420000 1).currentBank = 1 % 16 ∧
     (cart8MB.storeByte 0x420000 1).rom = cart8MB.rom ∧
     (cart8MB.storeByte 0x420000 1).romSize = cart8MB.romSize ∧
     (cart8MB.storeByte 0x420000 1).saveRAM = cart8MB.saveRAM ∧
     (cart8MB.storeByte 0x420000 1).saveRAMSize = cart8MB.saveRAMSize ∧
     (cart8MB.storeByte 0x420000 1).readByte 0xC00000 =
       (if 1 % 16 * 0x400000 + (0xC00000 - 0xC00000) < cart8MB.romSize then
          cart8MB.rom (1 % 16 * 0x400000 + (0xC00000 - 0xC00000))
        else 0xFF)) :=
  ⟨⟨by norm_num, le_refl _, by norm_num⟩,
   cartridge_bank_select_spec cart8MB 1 0xC00000 (by norm_num) (le_refl _) (by norm_num)⟩

/-! ### Tint post effect (src/core/video/video_renderer.cpp)

`VideoRenderer::applyTint` adds the signed per-channel tint offsets to a
framebuffer pixel with clamping to `[0, 255]`. -/

/-- `std::clamp(x, 0, 255)` on `int`. -/
def clamp255 (x : Int) : Int :=
  if x < 0 then 0 else if 255 < x then 255 else x

/-- `VideoRenderer::applyTint` (video_renderer.cpp lines 452-464),
verbatim: line 461 computes the output blue channel from the GREEN input
channel (`b = clamp(int(g) + tintB)`). -/
def applyTint (color : Nat) (tintR tintG tintB : Int) : Nat :=
  let r := (color >>> 16) &&& 0xFF
  let g := (color >>> 8) &&& 0xFF
  let b := (color >>> 0) &&& 0xFF
  let a := (color >>> 24) &&& 0xFF
  let r2 := (clamp255 ((r : Int) + tintR)).toNat
  let g2 := (clamp255 ((g : Int) + tintG)).toNat
  let b2 := (clamp255 ((g : Int) + tintB)).toNat
  (a <<< 24) ||| (r2 <<< 16) ||| (g2 <<< 8) ||| b2

/-- **C8** (code bug).  On the pixel `0xFF001064` (r = 0x00, g = 0x10,
b = 0x64) with tint `(0, 0, +1)` the tint effect returns blue
`0x11 = clamp(g + tintB)` instead of the specified
`0x65 = clamp(b + tintB)`: the blue channel is computed from the green
input channel (video_renderer.cpp line 461), which the spec itself flags
as a typo for `b = clamp(b + tintB)`. -/
theorem applyTint_blue_from_green :
    applyTint 0xFF001064 0 0 1 = 0xFF001011 ∧
    (applyTint 0xFF001064 0 0 1) &&& 0xFF = 0x11 ∧
    clamp255 (((0xFF001064 >>> 0 &&& 0xFF : Nat) : Int) + 1) = 0x65 ∧
    (0x11 : Nat) ≠ 0x65 := by
  refine ⟨by decide, by decide, by decide, by decide⟩

/-! ### Renderer VRAM access (src/core/video/video_renderer.cpp)

The renderer reaches VRAM only through `readVRAM`/`readVRAM16`
(video_renderer.cpp lines 487-497). -/

structure VideoRendererVram where
  vramAttached : Bool
  vram : RAM

/-- `VideoRenderer::readVRAM` (video_renderer.cpp line 487): returns 0
when no VRAM is attached or the flat address is at or above `0x80000`;
otherwise reads the RAM through `Address(flatAddr >> 16,
flatAddr & 0xFFFF)`. -/
def readVRAM (v : VideoRendererVram) (flatAddr : Nat) : Nat :=
  if v.vramAttached = false ∨ 0x80000 ≤ flatAddr then 0
  else v.vram.readByte (addrFlat (flatAddr >>> 16) (flatAddr &&& 0xFFFF))

/-- `VideoRenderer::readVRAM16` (video_renderer.cpp line 493):
little-endian 16-bit read built from two byte reads. -/
def readVRAM16 (v : VideoRendererVram) (addr : Nat) : Nat :=
  readVRAM v addr ||| readVRAM v (addr + 1) <<< 8

/-- **C10.** `readVRAM` is total and in range for every flat address: it
returns 0 (not the `0xFF` open-bus value) whenever no VRAM is attached or
the address is at or above `0x80000`, and a byte below 256 otherwise, so
`readVRAM16` (and with it every palette, tilemap, tile-data and sprite
fetch, all of which go through these two functions) is defined and below
`65536` for arbitrary addresses and VRAM contents. -/
theorem readVRAM_total_spec (v : VideoRendererVram) (a : Nat)
    (hwf : ∀ i, v.vram.data i < 256) :
    (v.vramAttached = false ∨ 0x80000 ≤ a → readVRAM v a = 0) ∧
    readVRAM v a < 256 ∧
    readVRAM16 v a = readVRAM v a ||| readVRAM v (a + 1) <<< 8 ∧
    readVRAM16 v a < 65536 := by
  have hbyte : ∀ b, readVRAM v b < 256 := by
    intro b
    unfold readVRAM RAM.readByte
    split
    · omega
    · dsimp only
      split
      · exact hwf _
      · omega
  refine ⟨fun h => ?_, hbyte a, rfl, ?_⟩
  · unfold readVRAM
    rw [if_pos h]
  · unfold readVRAM16
    exact or16_lt _ _ (hbyte a) (hbyte (a + 1))

/-- Concrete renderer state for the C10 witness: Graphics RAM attached,
one nonzero byte. -/
def vr0 : VideoRendererVram :=
  { vramAttached := true,
    vram := { baseAddress := 0, size := 0x20000,
              data := fun i => if i = 0 then 0x12 else 0 } }

/-- Witness for C10 at address `0x80000` (boundary of the guard). -/
theorem readVRAM_total_spec_witness :
    (∀ i, vr0.vram.data i < 256) ∧
    ((vr0.vramAttached = false ∨ 0x80000 ≤ 0x80000 → readVRAM vr0 0x80000 = 0) ∧
     readVRAM vr0 0x80000 < 256 ∧
     readVRAM16 vr0 0x80000 = readVRAM vr0 0x80000 ||| readVRAM vr0 (0x80000 + 1) <<< 8 ∧
     readVRAM16 vr0 0x80000 < 65536) :=
  ⟨fun i => by unfold vr0; simp only; split <;> norm_num,
   readVRAM_total_spec vr0 0x80000
     (fun i => by unfold vr0; simp only; split <;> norm_num)⟩

/-! ### CPLD2 raster timing (src/core/cpld/cpld2_video.cpp, `tick`)

`tick()` advances the raster position at pixel-clock rate; the state and
constants come from cpld2_video.h (`PIXELS_PER_LINE = 857`,
`LINES_PER_FRAME_240P = 262`, `LINES_PER_FRAME_480I = 525`). -/

structure CPLD2_Video where
  videoMode : Bool      -- false = MODE_240P, true = MODE_480I
  rasterLine : Nat
  rasterX : Nat
  inVBlank : Bool
  inHBlank : Bool
  vblankIRQPending : Bool
deriving DecidableEq

/-- `CPLD2_Video::getTotalLines` (cpld2_video.cpp line 207). -/
def CPLD2_Video.getTotalLines (s : CPLD2_Video) : Nat :=
  if s.videoMode then 525 else 262

/-- `CPLD2_Video::updateBlankingFlags` (cpld2_video.cpp line 188):
hblank for `raster_x` in `[0, 137]`, vblank below line 22 in 240p and per
field in 480i. -/
def CPLD2_Video.updateBlankingFlags (s : CPLD2_Video) : CPLD2_Video :=
  { s with
      inHBlank := decide (s.rasterX ≤ 137),
      inVBlank :=
        if s.videoMode = false then decide (s.rasterLine < 22)
        else decide (s.rasterLine < 22 ∨ (262 ≤ s.rasterLine ∧ s.rasterLine < 262 + 22)) }

/-- `CPLD2_Video::tick` (cpld2_video.cpp lines 160-186).  The `uint16_t`
counters wrap modulo 65536; the second component reports whether the
vblank IRQ callback fired during this tick. -/
def CPLD2_Video.tick (s : CPLD2_Video) : CPLD2_Video × Nat :=
  let x := (s.rasterX + 1) % 65536
  if 857 ≤ x then
    let line := (s.rasterLine + 1) % 65536
    if s.getTotalLines ≤ line then
      if s.vblankIRQPending = false then
        (CPLD2_Video.updateBlankingFlags
          { s with rasterX := 0, rasterLine := 0, vblankIRQPending := true }, 1)
      else
        (CPLD2_Video.updateBlankingFlags { s with rasterX := 0, rasterLine := 0 }, 0)
    else
      (CPLD2_Video.updateBlankingFlags { s with rasterX := 0, rasterLine := line }, 0)
  else
    (CPLD2_Video.updateBlankingFlags { s with rasterX := x }, 0)

/-- `n` consecutive `tick()` calls, accumulating the vblank IRQ count. -/
def CPLD2_Video.tickN : Nat → CPLD2_Video → CPLD2_Video × Nat
  | 0, s => (s, 0)
  | n + 1, s =>
    let q := CPLD2_Video.tickN n s
    let p := q.1.tick
    (p.1, q.2 + p.2)

/-- `CPLD2_Video::reset` (cpld2_video.cpp line 21) in 240p mode. -/
def CPLD2_Video.resetState : CPLD2_Video :=
  { videoMode := false, rasterLine := 0, rasterX := 0,
    inVBlank := true, inHBlank := true, vblankIRQPending := false }

/-- Closed form for the raster state after `n ≤ 224533` ticks from reset
in 240p mode: the beam is at line `n / 857`, pixel `n % 857`, and the
vblank latch has not yet fired (the first frame wrap is tick 224534). -/
def c6State (n : Nat) : CPLD2_Video :=
  { videoMode := false,
    rasterLine := n / 857,
    rasterX := n % 857,
    inVBlank := decide (n / 857 < 22),
    inHBlank := decide (n % 857 ≤ 137),
    vblankIRQPending := false }

theorem c6_step (n : Nat) (h : n + 1 ≤ 224533) :
    (c6State n).tick = (c6State (n + 1), 0) := by
  have hxlt : n % 857 < 857 := Nat.mod_lt _ (by norm_num)
  simp only [CPLD2_Video.tick, CPLD2_Video.getTotalLines,
    CPLD2_Video.updateBlankingFlags, c6State, Bool.false_eq_true,
    eq_self_iff_true, if_false, if_true]
  by_cases hwrapx : n % 857 = 856
  · have hdiv : n / 857 + 1 < 262 := by omega
    have harith1 : (n % 857 + 1) % 65536 = 857 := by omega
    have harith2 : (n / 857 + 1) % 65536 = n / 857 + 1 := by omega
    simp only [harith1, harith2]
    rw [if_pos (le_refl (857 : Nat))]
    rw [if_neg (by omega : ¬ ((262 : Nat) ≤ n / 857 + 1))]
    refine Prod.ext ?_ rfl
    simp only [CPLD2_Video.mk.injEq]
    exact ⟨by trivial, by omega, by omega, by rw [decide_eq_decide]; omega,
      by rw [decide_eq_decide]; omega, by trivial⟩
  · have harith1 : (n % 857 + 1) % 65536 = n % 857 + 1 := by omega
    simp only [harith1]
    rw [if_neg (by omega : ¬ ((857 : Nat) ≤ n % 857 + 1))]
    refine Prod.ext ?_ rfl
    simp only [CPLD2_Video.mk.injEq]
    exact ⟨by trivial, by omega, by omega, by rw [decide_eq_decide]; omega,
      by rw [decide_eq_decide]; omega, by trivial⟩

theorem c6_tickN (n : Nat) (h : n ≤ 224533) :
    CPLD2_Video.tickN n CPLD2_Video.resetState = (c6State n, 0) := by
  induction n with
  | zero =>
    show (CPLD2_Video.resetState, 0) = (c6State 0, 0)
    refine Prod.ext ?_ rfl
    decide
  | succ n ih =>
    unfold CPLD2_Video.tickN
    rw [ih (by omega)]
    simp only
    rw [c6_step n h]
    rfl

/-- **C6.** Starting from CPLD2 reset in 240p mode, after exactly
`PIXELS_PER_LINE * LINES_PER_FRAME_240P = 857 * 262` ticks the raster is
back at `raster_line = 0`, `raster_x = 0`, and the vblank IRQ callback
fired exactly once during the sequence (`vblank_irq_pending` latches on
the single frame wrap at tick 224534, so the callback cannot fire
twice). -/
theorem cpld2_tick_frame_spec :
    (CPLD2_Video.tickN (857 * 262) CPLD2_Video.resetState).1.rasterLine = 0 ∧
    (CPLD2_Video.tickN (857 * 262) CPLD2_Video.resetState).1.rasterX = 0 ∧
    (CPLD2_Video.tickN (857 * 262) CPLD2_Video.resetState).2 = 1 := by
  have h : (857 * 262 : Nat) = 224533 + 1 := by norm_num
  rw [h]
  unfold CPLD2_Video.tickN
  rw [c6_tickN 224533 (le_refl _)]
  simp only
  have hfinal : (c6State 224533).tick =
      ({ videoMode := false, rasterLine := 0, rasterX := 0, inVBlank := true,
         inHBlank := true, vblankIRQPending := true }, 1) := by
    have hc : c6State 224533 =
        { videoMode := false, rasterLine := 261, rasterX := 856, inVBlank := false,
          inHBlank := false, vblankIRQPending := false } := by
      decide
    rw [hc]
    decide
  rw [hfinal]
  exact ⟨rfl, rfl, rfl⟩

/-! ### CPLD3 raster effects (src/core/cpld/cpld3_raster.h, cpld3_raster.cpp)

Per-scanline scroll/palette overrides.  The 16-bit fields
(`scrollOffsetReg`, `irqScanline`, `tableAddr`, table scroll entries)
are kept as bit patterns below `2 ^ 16`; every assignment in the source
masks them back into that range. -/

structure CPLD3_Raster where
  tableMode : Bool
  scrollOffsetReg : Nat
  paletteSelectReg : Nat
  currentScrollOffset : Nat
  currentPaletteSelect : Nat
  tableIndex : Nat
  tableAddr : Nat
  tableByteOffset : Nat
  scanlineTable : Nat → Nat × Nat
  irqScanline : Nat
  irqEnable : Bool
  irqPending : Bool

/-- `CPLD3_Raster::storeByte` (cpld3_raster.cpp lines 99-181).  The
switch is on `offset = flatAddr - getBaseAddress()` with base
`$400300`; `value` is a `uint8_t`. -/
def CPLD3_Raster.storeByte (s : CPLD3_Raster) (flatAddr value : Nat) : CPLD3_Raster :=
  let offset := sub32 flatAddr 0x400300
  let v := value % 256
  if offset = 0x00 then
    { s with scrollOffsetReg := (s.scrollOffsetReg &&& 0xFF00) ||| v }
  else if offset = 0x01 then
    { s with scrollOffsetReg := (s.scrollOffsetReg &&& 0x00FF) ||| (v <<< 8) }
  else if offset = 0x02 then { s with paletteSelectReg := v }
  else if offset = 0x04 then
    { s with irqScanline := (s.irqScanline &&& 0xFF00) ||| v }
  else if offset = 0x05 then
    { s with irqScanline := (s.irqScanline &&& 0x00FF) ||| ((v &&& 0x01) <<< 8) }
  else if offset = 0x06 then { s with irqEnable := decide (v &&& 0x01 ≠ 0) }
  else if offset = 0x08 then
    (if v &&& 0x01 ≠ 0 then { s with irqPending := false } else s)
  else if offset = 0x10 then
    (if v &&& 0x01 ≠ 0 then { s with tableMode := true, tableIndex := 0 }
     else { s with tableMode := false })
  else if offset = 0x12 then
    { s with tableAddr := (s.tableAddr &&& 0xFF00) ||| v, tableByteOffset := 0 }
  else if offset = 0x13 then
    { s with tableAddr := (s.tableAddr &&& 0x00FF) ||| ((v &&& 0x01) <<< 8),
             tableByteOffset := 0 }
  else if offset = 0x14 then
    (if s.tableAddr < 262 then
      (if s.tableByteOffset = 0 then
        { s with
            scanlineTable := fun j => if j = s.tableAddr then
                (((s.scanlineTable s.tableAddr).1 &&& 0xFF00) ||| v,
                 (s.scanlineTable s.tableAddr).2)
              else s.scanlineTable j,
            tableByteOffset := (s.tableByteOffset + 1) % 256 }
      else if s.tableByteOffset = 1 then
        { s with
            scanlineTable := fun j => if j = s.tableAddr then
                (((s.scanlineTable s.tableAddr).1 &&& 0x00FF) ||| (v <<< 8),
                 (s.scanlineTable s.tableAddr).2)
              else s.scanlineTable j,
            tableByteOffset := (s.tableByteOffset + 1) % 256 }
      else if s.tableByteOffset = 2 then
        { s with
            scanlineTable := fun j => if j = s.tableAddr then
                ((s.scanlineTable s.tableAddr).1, v)
              else s.scanlineTable j,
            tableByteOffset := 0,
            tableAddr := (s.tableAddr + 1) % 65536 }
      else s)
     else s)
  else s

/-- `CPLD3_Raster::reset` (cpld3_raster.cpp line 21). -/
def CPLD3_Raster.resetState : CPLD3_Raster :=
  { tableMode := false, scrollOffsetReg := 0, paletteSelectReg := 0,
    currentScrollOffset := 0, currentPaletteSelect := 0,
    tableIndex := 0, tableAddr := 0, tableByteOffset := 0,
    scanlineTable := fun _ => (0, 0),
    irqScanline := 0, irqEnable := false, irqPending := false }

/-- The write sequence that drives `table_addr` past row 261: set the row
index to 261 via `$400312/13`, fill row 261 with three `$400314` data
writes, then issue one more data write. -/
def c9AfterRow261 : CPLD3_Raster :=
  ((((CPLD3_Raster.resetState.storeByte 0x400312 5).storeByte 0x400313 1).storeByte
      0x400314 0x11).storeByte 0x400314 0x22).storeByte 0x400314 0x33

/-- **C9 counterexample.**  After completing the phase-2 write of row 261
the code leaves `table_addr = 262` — it does not wrap back to 0 as the
claim states — and the next TABLE_DATA write is ignored: row 0 keeps its
reset value `(0, 0)` instead of receiving the written byte `0x44` as its
scroll-offset low byte. -/
theorem cpld3_table_addr_no_wrap :
    c9AfterRow261.tableAddr = 262 ∧ (262 : Nat) ≠ 0 ∧
    c9AfterRow261.scanlineTable 261 = (0x2211, 0x33) ∧
    (c9AfterRow261.storeByte 0x400314 0x44).tableAddr = 262 ∧
    (c9AfterRow261.storeByte 0x400314 0x44).scanlineTable 0 = (0, 0) ∧
    ((0, 0) : Nat × Nat).1 ≠ 0x44 := by
  refine ⟨by decide, by decide, by decide, by decide, by decide, by decide⟩

theorem cpld3_offset_14 : sub32 0x400314 0x400300 = 0x14 := by decide

/-- **C9 (amended).**  Writes to TABLE_DATA (`$400314`) cycle through a
three-phase state per table row — phase 0 stores the scroll-offset low
byte, phase 1 the scroll-offset high byte, phase 2 the palette select
into `scanline_table[table_addr]`, rows other than `table_addr` never
change — and on completion of each phase-2 write `table_addr` increments
by one WITHOUT wrapping: once `table_addr` reaches 262 (after row 261
completes) further TABLE_DATA writes leave the CPLD3 state unchanged
until the row index is rewritten through `$400312/13`. -/
theorem cpld3_table_data_spec (s : CPLD3_Raster) (v : Nat) :
    (s.tableAddr < 262 →
      ((s.tableByteOffset = 0 →
         (s.storeByte 0x400314 v).scanlineTable s.tableAddr =
           (((s.scanlineTable s.tableAddr).1 &&& 0xFF00) ||| v % 256,
            (s.scanlineTable s.tableAddr).2) ∧
         (s.storeByte 0x400314 v).tableByteOffset = 1 ∧
         (s.storeByte 0x400314 v).tableAddr = s.tableAddr) ∧
       (s.tableByteOffset = 1 →
         (s.storeByte 0x400314 v).scanlineTable s.tableAddr =
           (((s.scanlineTable s.tableAddr).1 &&& 0x00FF) ||| (v % 256) <<< 8,
            (s.scanlineTable s.tableAddr).2) ∧
         (s.storeByte 0x400314 v).tableByteOffset = 2 ∧
         (s.storeByte 0x400314 v).tableAddr = s.tableAddr) ∧
       (s.tableByteOffset = 2 →
         (s.storeByte 0x400314 v).scanlineTable s.tableAddr =
           ((s.scanlineTable s.tableAddr).1, v % 256) ∧
         (s.storeByte 0x400314 v).tableByteOffset = 0 ∧
         (s.storeByte 0x400314 v).tableAddr = s.tableAddr + 1) ∧
       (∀ j, j ≠ s.tableAddr →
         (s.storeByte 0x400314 v).scanlineTable j = s.scanlineTable j))) ∧
    (262 ≤ s.tableAddr → s.storeByte 0x400314 v = s) := by
  have hbranch : ∀ (w : Nat), s.storeByte 0x400314 w =
      (if s.tableAddr < 262 then
        (if s.tableByteOffset = 0 then
          { s with
              scanlineTable := fun j => if j = s.tableAddr then
                  (((s.scanlineTable s.tableAddr).1 &&& 0xFF00) ||| w % 256,
                   (s.scanlineTable s.tableAddr).2)
                else s.scanlineTable j,
              tableByteOffset := (s.tableByteOffset + 1) % 256 }
        else if s.tableByteOffset = 1 then
          { s with
              scanlineTable := fun j => if j = s.tableAddr then
                  (((s.scanlineTable s.tableAddr).1 &&& 0x00FF) ||| (w % 256) <<< 8,
                   (s.scanlineTable s.tableAddr).2)
                else s.scanlineTable j,
              tableByteOffset := (s.tableByteOffset + 1) % 256 }
        else if s.tableByteOffset = 2 then
          { s with
              scanlineTable := fun j => if j = s.tableAddr then
                  ((s.scanlineTable s.tableAddr).1, w % 256)
                else s.scanlineTable j,
              tableByteOffset := 0,
              tableAddr := (s.tableAddr + 1) % 65536 }
        else s)
       else s) := by
    intro w
    unfold CPLD3_Raster.storeByte
    rw [cpld3_offset_14]
    norm_num
  constructor
  · intro haddr
    refine ⟨?_, ?_, ?_, ?_⟩
    · intro hph
      rw [hbranch v, if_pos haddr, if_pos hph]
      exact ⟨by simp, by rw [hph], rfl⟩
    · intro hph
      rw [hbranch v, if_pos haddr, if_neg (by omega), if_pos hph]
      exact ⟨by simp, by rw [hph], rfl⟩
    · intro hph
      rw [hbranch v, if_pos haddr, if_neg (by omega), if_neg (by omega), if_pos hph]
      refine ⟨by simp, rfl, ?_⟩
      show (s.tableAddr + 1) % 65536 = s.tableAddr + 1
      omega
    · intro j hj
      rw [hbranch v, if_pos haddr]
      by_cases h0 : s.tableByteOffset = 0
      · rw [if_pos h0]
        simp [hj]
      · rw [if_neg h0]
        by_cases h1 : s.tableByteOffset = 1
        · rw [if_pos h1]
          simp [hj]
        · rw [if_neg h1]
          by_cases h2 : s.tableByteOffset = 2
          · rw [if_pos h2]
            simp [hj]
          · rw [if_neg h2]
  · intro haddr
    rw [hbranch v, if_neg (by omega)]

/-- Concrete CPLD3 state for the C9 witness: reset state with the write
pointer at row 3, phase 2 (about to complete the row). -/
def c9Phase2 : CPLD3_Raster :=
  { CPLD3_Raster.resetState with tableAddr := 3, tableByteOffset := 2 }

/-- Witness for C9 (amended): completing phase 2 of row 3 stores the
palette byte and advances `table_addr` to 4. -/
theorem cpld3_table_data_spec_witness :
    (c9Phase2.tableAddr < 262 ∧ c9Phase2.tableByteOffset = 2) ∧
    ((c9Phase2.storeByte 0x400314 0x33).scanlineTable c9Phase2.tableAddr =
       ((c9Phase2.scanlineTable c9Phase2.tableAddr).1, 0x33 % 256) ∧
     (c9Phase2.storeByte 0x400314 0x33).tableByteOffset = 0 ∧
     (c9Phase2.storeByte 0x400314 0x33).tableAddr = c9Phase2.tableAddr + 1) :=
  ⟨⟨by decide, by decide⟩,
   (((cpld3_table_data_spec c9Phase2 0x33).1 (by decide)).2.2.1 (by decide))⟩

/-! ### Memory bus (src/core/memory/memory_bus.h, memory_bus.cpp)

`MemoryBus` keeps a list of mapped regions.  `mapDevice` pushes the new
region and then re-sorts the whole list by base address
(memory_bus.cpp lines 71-77); because the existing list is already
sorted, that `std::sort` is an ordered insertion (registration order
among equal bases is unspecified by `std::sort` and irrelevant to the
theorems below, which assume pairwise distinct bases).  `findDevice`
scans the sorted list and returns the first region containing the
address, with an early exit once the bases pass it
(memory_bus.cpp lines 84-96). -/

structure MemoryDevice where
  did : Nat
  readFn : Nat → Nat

structure MappedRegion where
  baseAddress : Nat
  endAddress : Nat
  device : MemoryDevice

structure MemoryBus where
  mappedRegions : List MappedRegion

/-- Ordered insertion by `baseAddress` (the effect of `push_back` followed
by `std::sort` on an already sorted vector). -/
def insertByBase (r : MappedRegion) : List MappedRegion → List MappedRegion
  | [] => [r]
  | x :: xs =>
    if r.baseAddress < x.baseAddress then r :: x :: xs else x :: insertByBase r xs

/-- `MemoryBus::mapDevice` (memory_bus.cpp line 51): rejects null sizes,
masks base and end to 24 bits, inserts, re-sorts by base. -/
def MemoryBus.mapDevice (bus : MemoryBus) (device : MemoryDevice)
    (baseAddress size : Nat) : MemoryBus :=
  if size = 0 then bus
  else
    { mappedRegions :=
        insertByBase
          { baseAddress := baseAddress &&& 0xFFFFFF,
            endAddress := (baseAddress + size - 1) &&& 0xFFFFFF,
            device := device }
          bus.mappedRegions }

/-- `MemoryBus::findDevice` (memory_bus.cpp line 84): linear scan of the
sorted region list, first hit wins, early exit when the address precedes
the region base. -/
def findDevice : List MappedRegion → Nat → Option MemoryDevice
  | [], _ => none
  | r :: rs, address =>
    if r.baseAddress ≤ address ∧ address ≤ r.endAddress then some r.device
    else if address < r.baseAddress then none
    else findDevice rs address

/-- `MemoryBus::read` (memory_bus.cpp line 14): mask to 24 bits, dispatch
to the found device, `0xFF` open bus otherwise. -/
def MemoryBus.read (bus : MemoryBus) (address : Nat) : Nat :=
  match findDevice bus.mappedRegions (address &&& 0xFFFFFF) with
  | some device => device.readFn (address &&& 0xFFFFFF)
  | none => 0xFF

/-- `MemoryBus::write` (memory_bus.cpp line 27) dispatches identically;
this returns the id of the device that receives the write (`none` when
the write is dropped). -/
def MemoryBus.writeTarget (bus : MemoryBus) (address : Nat) : Option Nat :=
  (findDevice bus.mappedRegions (address &&& 0xFFFFFF)).map MemoryDevice.did

/-- A registration sequence: `(device, baseAddress, size)` triples passed
to `mapDevice` in order. -/
def busOf (specs : List (MemoryDevice × Nat × Nat)) : MemoryBus :=
  specs.foldl (fun b p => b.mapDevice p.1 p.2.1 p.2.2) { mappedRegions := [] }

/-- The dispatch rule of the specification, stated from its words: the
FIRST-REGISTERED device whose mapped range claims the address (a range
claims `a` when `base ≤ a ≤ base + size - 1`). -/
def firstRegisteredClaiming (specs : List (MemoryDevice × Nat × Nat)) (a : Nat) :
    Option MemoryDevice :=
  (specs.find? fun p => decide (p.2.1 ≤ a ∧ a ≤ p.2.1 + p.2.2 - 1)).map (·.1)

/-- Two overlapping devices registered in the order D1 (base `$000100`,
size `$100`, reads `0xAA`), then D2 (base `$000000`, size `$200`, reads
`0xBB`). -/
def d1 : MemoryDevice := { did := 1, readFn := fun _ => 0xAA }

def d2 : MemoryDevice := { did := 2, readFn := fun _ => 0xBB }

def c3Regs : List (MemoryDevice × Nat × Nat) := [(d1, 0x100, 0x100), (d2, 0x0, 0x200)]

/-- **C3 counterexample.**  Address `$000150` is claimed by both devices;
the first-REGISTERED claimant is D1 (reads `0xAA`), but the bus read
returns `0xBB` and the write goes to D2, because `mapDevice` re-sorts the
region list by base address and `findDevice` takes the first hit in
sorted order, so the claimant with the LOWEST BASE wins, not the one
registered first. -/
theorem memoryBus_not_registration_order :
    (busOf c3Regs).read 0x150 = 0xBB ∧
    (firstRegisteredClaiming c3Regs 0x150).map MemoryDevice.did = some 1 ∧
    d1.readFn 0x150 = 0xAA ∧
    (busOf c3Regs).writeTarget 0x150 = some 2 ∧
    (0xBB : Nat) ≠ 0xAA ∧ (some 2 : Option Nat) ≠ some 1 := by
  refine ⟨by decide, by decide, by decide, by decide, by decide, by decide⟩

/-- The region a registration triple produces (the literal built in
`mapDevice`). -/
def mkRegion (p : MemoryDevice × Nat × Nat) : MappedRegion :=
  { baseAddress := p.2.1 &&& 0xFFFFFF,
    endAddress := (p.2.1 + p.2.2 - 1) &&& 0xFFFFFF,
    device := p.1 }

theorem mem_insertByBase {x r : MappedRegion} :
    ∀ {l : List MappedRegion}, x ∈ insertByBase r l ↔ x = r ∨ x ∈ l := by
  intro l
  induction l with
  | nil => simp [insertByBase]
  | cons y ys ih =>
    simp only [insertByBase]
    split
    · simp [List.mem_cons]
    · simp only [List.mem_cons, ih]
      tauto

theorem sorted_insertByBase (r : MappedRegion) :
    ∀ {l : List MappedRegion},
      l.Pairwise (fun p q => p.baseAddress ≤ q.baseAddress) →
      (insertByBase r l).Pairwise (fun p q => p.baseAddress ≤ q.baseAddress) := by
  intro l
  induction l with
  | nil =>
    intro _
    simp [insertByBase]
  | cons y ys ih =>
    intro h
    rw [List.pairwise_cons] at h
    simp only [insertByBase]
    split
    · rw [List.pairwise_cons]
      refine ⟨fun z hz => ?_, List.pairwise_cons.mpr h⟩
      rcases List.mem_cons.mp hz with rfl | hz'
      · omega
      · have := h.1 z hz'
        omega
    · rw [List.pairwise_cons]
      refine ⟨fun z hz => ?_, ih h.2⟩
      rcases mem_insertByBase.mp hz with rfl | hz'
      · omega
      · exact h.1 z hz'

theorem distinct_insertByBase (r : MappedRegion) :
    ∀ {l : List MappedRegion},
      (∀ x ∈ l, r.baseAddress ≠ x.baseAddress) →
      l.Pairwise (fun p q => p.baseAddress ≠ q.baseAddress) →
      (insertByBase r l).Pairwise (fun p q => p.baseAddress ≠ q.baseAddress) := by
  intro l
  induction l with
  | nil =>
    intro _ _
    simp [insertByBase]
  | cons y ys ih =>
    intro hr h
    rw [List.pairwise_cons] at h
    simp only [insertByBase]
    split
    · rw [List.pairwise_cons]
      refine ⟨fun z hz => ?_, List.pairwise_cons.mpr h⟩
      rcases List.mem_cons.mp hz with hzy | hz'
      · subst hzy
        exact hr _ (List.mem_cons_self _ _)
      · exact hr z (List.mem_cons_of_mem _ hz')
    · rw [List.pairwise_cons]
      refine ⟨fun z hz => ?_, ih (fun x hx => hr x (List.mem_cons_of_mem _ hx)) h.2⟩
      rcases mem_insertByBase.mp hz with hzr | hz'
      · subst hzr
        exact (hr _ (List.mem_cons_self _ _)).symm
      · exact h.1 z hz'

/-- Invariant of the `mapDevice` fold: the region list stays sorted by
base, keeps pairwise-distinct bases, and holds exactly the regions of the
processed registrations with nonzero size. -/
theorem busOf_invariant (specs : List (MemoryDevice × Nat × Nat)) :
    ∀ (bus : MemoryBus),
    bus.mappedRegions.Pairwise (fun p q => p.baseAddress ≤ q.baseAddress) →
    bus.mappedRegions.Pairwise (fun p q => p.baseAddress ≠ q.baseAddress) →
    (∀ p ∈ specs, ∀ x ∈ bus.mappedRegions, p.2.1 &&& 0xFFFFFF ≠ x.baseAddress) →
    specs.Pairwise (fun p q => p.2.1 &&& 0xFFFFFF ≠ q.2.1 &&& 0xFFFFFF) →
    (specs.foldl (fun b p => b.mapDevice p.1 p.2.1 p.2.2)
        bus).mappedRegions.Pairwise (fun p q => p.baseAddress ≤ q.baseAddress) ∧
    (specs.foldl (fun b p => b.mapDevice p.1 p.2.1 p.2.2)
        bus).mappedRegions.Pairwise (fun p q => p.baseAddress ≠ q.baseAddress) ∧
    (∀ x, x ∈ (specs.foldl (fun b p => b.mapDevice p.1 p.2.1 p.2.2) bus).mappedRegions ↔
      x ∈ bus.mappedRegions ∨ ∃ p ∈ specs, p.2.2 ≠ 0 ∧ x = mkRegion p) := by
  induction specs with
  | nil =>
    intro bus hs hd _ _
    simp only [List.foldl_nil]
    exact ⟨hs, hd, fun x => by simp⟩
  | cons p ps ih =>
    intro bus hs hd hfut hpw
    rw [List.foldl_cons]
    rw [List.pairwise_cons] at hpw
    by_cases hz : p.2.2 = 0
    · have hmap : bus.mapDevice p.1 p.2.1 p.2.2 = bus := by
        unfold MemoryBus.mapDevice
        rw [if_pos hz]
      rw [hmap]
      obtain ⟨a1, a2, a3⟩ := ih bus hs hd
        (fun q hq => hfut q (List.mem_cons_of_mem _ hq)) hpw.2
      refine ⟨a1, a2, fun x => ?_⟩
      rw [a3 x]
      simp only [List.mem_cons]
      constructor
      · rintro (h | ⟨q, hq, hq2, hq3⟩)
        · exact Or.inl h
        · exact Or.inr ⟨q, Or.inr hq, hq2, hq3⟩
      · rintro (h | ⟨q, (rfl | hq), hq2, hq3⟩)
        · exact Or.inl h
        · exact absurd hz hq2
        · exact Or.inr ⟨q, hq, hq2, hq3⟩
    · have hmap : bus.mapDevice p.1 p.2.1 p.2.2 =
          { mappedRegions := insertByBase (mkRegion p) bus.mappedRegions } := by
        unfold MemoryBus.mapDevice mkRegion
        rw [if_neg hz]
      rw [hmap]
      have hsort' := sorted_insertByBase (mkRegion p) hs
      have hdist' := distinct_insertByBase (mkRegion p)
        (fun x hx => hfut p (List.mem_cons_self _ _) x hx) hd
      have hfut' : ∀ q ∈ ps, ∀ x ∈ insertByBase (mkRegion p) bus.mappedRegions,
          q.2.1 &&& 0xFFFFFF ≠ x.baseAddress := by
        intro q hq x hx
        rcases mem_insertByBase.mp hx with rfl | hx'
        · exact (hpw.1 q hq).symm
        · exact hfut q (List.mem_cons_of_mem _ hq) x hx'
      obtain ⟨a1, a2, a3⟩ := ih _ hsort' hdist' hfut' hpw.2
      refine ⟨a1, a2, fun x => ?_⟩
      rw [a3 x]
      simp only [mem_insertByBase, List.mem_cons]
      constructor
      · rintro ((rfl | h) | ⟨q, hq, hq2, hq3⟩)
        · exact Or.inr ⟨p, Or.inl rfl, hz, rfl⟩
        · exact Or.inl h
        · exact Or.inr ⟨q, Or.inr hq, hq2, hq3⟩
      · rintro (h | ⟨q, (rfl | hq), hq2, hq3⟩)
        · exact Or.inl (Or.inr h)
        · exact Or.inl (Or.inl hq3)
        · exact Or.inr ⟨q, hq, hq2, hq3⟩

theorem findDevice_none (a : Nat) :
    ∀ {l : List MappedRegion},
      (∀ r ∈ l, ¬ (r.baseAddress ≤ a ∧ a ≤ r.endAddress)) →
      findDevice l a = none := by
  intro l
  induction l with
  | nil => intro _; rfl
  | cons x xs ih =>
    intro h
    simp only [findDevice]
    rw [if_neg (h x (List.mem_cons_self _ _))]
    split
    · rfl
    · exact ih (fun r hr => h r (List.mem_cons_of_mem _ hr))

theorem findDevice_least_base (a : Nat) (r : MappedRegion) :
    ∀ {l : List MappedRegion},
      l.Pairwise (fun p q => p.baseAddress ≤ q.baseAddress) →
      l.Pairwise (fun p q => p.baseAddress ≠ q.baseAddress) →
      r ∈ l → (r.baseAddress ≤ a ∧ a ≤ r.endAddress) →
      (∀ q ∈ l, (q.baseAddress ≤ a ∧ a ≤ q.endAddress) →
        r.baseAddress ≤ q.baseAddress) →
      findDevice l a = some r.device := by
  intro l
  induction l with
  | nil => intro _ _ hmem; exact absurd hmem (List.not_mem_nil r)
  | cons x xs ih =>
    intro hs hd hmem hcl hmin
    rw [List.pairwise_cons] at hs hd
    simp only [findDevice]
    by_cases hx : x.baseAddress ≤ a ∧ a ≤ x.endAddress
    · rw [if_pos hx]
      rcases List.mem_cons.mp hmem with rfl | hmem'
      · rfl
      · exfalso
        have h1 : x.baseAddress ≤ r.baseAddress := hs.1 r hmem'
        have h2 : r.baseAddress ≤ x.baseAddress := hmin x (List.mem_cons_self _ _) hx
        have h3 : x.baseAddress ≠ r.baseAddress := hd.1 r hmem'
        omega
    · rw [if_neg hx]
      have hmem' : r ∈ xs := by
        rcases List.mem_cons.mp hmem with rfl | h'
        · exact absurd hcl hx
        · exact h'
      have hxa : ¬ (a < x.baseAddress) := by
        have h1 : x.baseAddress ≤ r.baseAddress := hs.1 r hmem'
        omega
      rw [if_neg hxa]
      exact ih hs.2 hd.2 hmem' hcl
        (fun q hq hcq => hmin q (List.mem_cons_of_mem _ hq) hcq)

/-- **C3 (amended).**  For every 24-bit address `a` and every bus whose
devices were registered with nonzero, non-wrapping ranges and pairwise
DISTINCT base addresses: a bus read of `a` returns `D.read(a)` for the
registered device `D` whose range claims `a` and whose BASE ADDRESS is
least among all claimants (not the first-registered claimant — mapDevice
re-sorts the region list by base), and returns `0xFF` when no registered
range claims `a`; a bus write of `a` goes to that same least-base
claimant and is dropped when there is none. -/
theorem memoryBus_least_base_spec (specs : List (MemoryDevice × Nat × Nat)) (a : Nat)
    (ha : a < 16777216)
    (hsz : ∀ p ∈ specs, p.2.2 ≠ 0)
    (hnw : ∀ p ∈ specs, p.2.1 + p.2.2 ≤ 16777216)
    (hdist : specs.Pairwise (fun p q => p.2.1 ≠ q.2.1)) :
    ((∀ p ∈ specs, ¬ (p.2.1 ≤ a ∧ a ≤ p.2.1 + p.2.2 - 1)) →
      (busOf specs).read a = 0xFF ∧ (busOf specs).writeTarget a = none) ∧
    (∀ p ∈ specs, (p.2.1 ≤ a ∧ a ≤ p.2.1 + p.2.2 - 1) →
      (∀ q ∈ specs, (q.2.1 ≤ a ∧ a ≤ q.2.1 + q.2.2 - 1) → p.2.1 ≤ q.2.1) →
      (busOf specs).read a = p.1.readFn a ∧
      (busOf specs).writeTarget a = some p.1.did) := by
  have hmaskA : a &&& 0xFFFFFF = a := by
    rw [and_ffffff]
    omega
  have hbase : ∀ p ∈ specs, p.2.1 &&& 0xFFFFFF = p.2.1 := by
    intro p hp
    have h1 := hnw p hp
    have h2 := hsz p hp
    rw [and_ffffff]
    omega
  have hend : ∀ p ∈ specs, (p.2.1 + p.2.2 - 1) &&& 0xFFFFFF = p.2.1 + p.2.2 - 1 := by
    intro p hp
    have h1 := hnw p hp
    have h2 := hsz p hp
    rw [and_ffffff]
    omega
  have hmkb : ∀ q ∈ specs, (mkRegion q).baseAddress = q.2.1 := fun q hq => hbase q hq
  have hmke : ∀ q ∈ specs, (mkRegion q).endAddress = q.2.1 + q.2.2 - 1 :=
    fun q hq => hend q hq
  have hdist' : specs.Pairwise (fun p q => p.2.1 &&& 0xFFFFFF ≠ q.2.1 &&& 0xFFFFFF) := by
    refine List.Pairwise.imp_of_mem ?_ hdist
    intro p q hp hq hne
    rw [hbase p hp, hbase q hq]
    exact hne
  obtain ⟨hsort, hdreg, hmem⟩ := busOf_invariant specs { mappedRegions := [] }
    (by simp) (by simp) (by simp) hdist'
  constructor
  · intro hnone
    have hfd : findDevice (busOf specs).mappedRegions a = none := by
      apply findDevice_none
      intro r hr
      rcases (hmem r).mp hr with h | ⟨p, hp, _, rfl⟩
      · simp at h
      · rw [hmkb p hp, hmke p hp]
        exact hnone p hp
    unfold MemoryBus.read MemoryBus.writeTarget
    rw [hmaskA, hfd]
    exact ⟨rfl, rfl⟩
  · intro p hp hcl hmin
    have hr : mkRegion p ∈ (busOf specs).mappedRegions :=
      (hmem (mkRegion p)).mpr (Or.inr ⟨p, hp, hsz p hp, rfl⟩)
    have hfd : findDevice (busOf specs).mappedRegions a = some (mkRegion p).device := by
      apply findDevice_least_base a (mkRegion p) hsort hdreg hr
      · rw [hmkb p hp, hmke p hp]
        exact hcl
      · intro q hq hcq
        rcases (hmem q).mp hq with h | ⟨q', hq', _, rfl⟩
        · simp at h
        · rw [hmkb q' hq', hmke q' hq'] at hcq
          rw [hmkb p hp, hmkb q' hq']
          exact hmin q' hq' hcq
    unfold MemoryBus.read MemoryBus.writeTarget
    rw [hmaskA, hfd]
    exact ⟨rfl, rfl⟩

/-- Witness for C3 (amended) on the overlapping two-device configuration:
the least-base claimant of `$000150` is D2, and the bus dispatches both
the read and the write to it. -/
theorem memoryBus_least_base_spec_witness :
    ((0x150 : Nat) < 16777216 ∧ (∀ p ∈ c3Regs, p.2.2 ≠ 0) ∧
     (∀ p ∈ c3Regs, p.2.1 + p.2.2 ≤ 16777216) ∧
     c3Regs.Pairwise (fun p q => p.2.1 ≠ q.2.1) ∧
     (d2, 0x0, 0x200) ∈ c3Regs ∧
     ((0x0 : Nat) ≤ 0x150 ∧ (0x150 : Nat) ≤ 0x0 + 0x200 - 1)) ∧
    ((busOf c3Regs).read 0x150 = (d2, (0x0 : Nat), (0x200 : Nat)).1.readFn 0x150 ∧
     (busOf c3Regs).writeTarget 0x150 = some (d2, (0x0 : Nat), (0x200 : Nat)).1.did) :=
  ⟨⟨by norm_num, by decide, by decide, by decide,
     List.Mem.tail _ (List.Mem.head _), by norm_num⟩,
   (memoryBus_least_base_spec c3Regs 0x150 (by norm_num) (by decide) (by decide)
      (by decide)).2 (d2, 0x0, 0x200) (List.Mem.tail _ (List.Mem.head _)) (by norm_num)
      (by decide)⟩

/-! ### AudioMixer (src/audio_mixer.h, audio_mixer.cpp)

The mixer works in IEEE float; it is embedded here over `ℚ`.  Every
operation of the mixer (sums of small integers, comparisons against
32767, the constants 0.01 and 1.0) is modelled exactly; on the concrete
counterexample input below every float value the C++ code computes
(5000, 40000, 32767, 0.0, 1.0) is exactly representable and no rounding
occurs, so the rational model and the float code agree there. -/

structure MixChannel where
  volume : ℚ
  pan : ℚ
  muted : Bool

structure AudioMixer where
  channels : List MixChannel
  masterVolume : ℚ
  autoGainControl : Bool
  currentGain : ℚ
  targetGain : ℚ

/-- `AudioMixer::clamp` (audio_mixer.cpp line 177): clamp to the int16
range; the final `static_cast<int16_t>` truncates toward zero (floor for
nonnegative values, ceiling for negative ones). -/
def clampI16 (sample : ℚ) : Int :=
  if sample > 32767 then 32767
  else if sample < -32768 then -32768
  else if 0 ≤ sample then ⌊sample⌋ else ⌈sample⌉

/-- The pan law of `AudioMixer::mixFrame` (audio_mixer.cpp lines 80-88):
`(leftGain, rightGain)` as a function of the channel pan. -/
def panGains (pan : ℚ) : ℚ × ℚ :=
  if pan ≤ 0 then (1, 1 + pan) else (1 - pan, 1)

/-- The pre-clamp stereo sums of `AudioMixer::mixFrame` (audio_mixer.cpp
lines 62-96): each non-muted channel contributes
`leftSample * volume * gain` per side, then the master volume scales the
sums.  `samples` pairs each channel in order with the `leftSample` its
`getAudioFrame` call returns (the source ignores `rightSample`; entries
paired with muted channels are unused). -/
def AudioMixer.preClampSums (m : AudioMixer) (samples : List Int) : ℚ × ℚ :=
  let sums := (m.channels.zip samples).foldl
    (fun acc p =>
      if p.1.muted then acc
      else
        (acc.1 + (p.2 : ℚ) * p.1.volume * (panGains p.1.pan).1,
         acc.2 + (p.2 : ℚ) * p.1.volume * (panGains p.1.pan).2))
    (0, 0)
  (sums.1 * m.masterVolume, sums.2 * m.masterVolume)

/-- `AudioMixer::mixFrame` (audio_mixer.cpp lines 98-100): the pre-clamp
sums clamped to int16. -/
def AudioMixer.mixFrame (m : AudioMixer) (samples : List Int) : Int × Int :=
  (clampI16 (m.preClampSums samples).1, clampI16 (m.preClampSums samples).2)

/-- `AudioMixer::applyAGC` (audio_mixer.cpp lines 107-128): the peak is
computed from the ALREADY-CLAMPED int16 frame the caller hands in; the
gain blends toward the target by `alpha = 0.01` and the updated gain
scales both channels, clamped again. -/
def AudioMixer.applyAGC (m : AudioMixer) (left right : Int) : AudioMixer × Int × Int :=
  let peak : ℚ := max |(left : ℚ)| |(right : ℚ)|
  let target : ℚ := if peak > 32767 then 32767 / peak else 1
  let gain : ℚ := m.currentGain + (target - m.currentGain) * (1 / 100)
  ({ m with targetGain := target, currentGain := gain },
   clampI16 ((left : ℚ) * gain), clampI16 ((right : ℚ) * gain))

/-- One frame of `AudioMixer::generateSamples` (audio_mixer.cpp lines
45-59): mix, then AGC when enabled. -/
def AudioMixer.stepFrame (m : AudioMixer) (samples : List Int) : AudioMixer × Int × Int :=
  let lr := m.mixFrame samples
  if m.autoGainControl then m.applyAGC lr.1 lr.2 else (m, lr.1, lr.2)

/-- `generateSamples` over a list of frames (mixer state only). -/
def AudioMixer.runFrames (m : AudioMixer) : List (List Int) → AudioMixer
  | [] => m
  | f :: fs => AudioMixer.runFrames (m.stepFrame f).1 fs

/-- `AudioMixer::reset` (audio_mixer.cpp line 19): all 8 channels at
volume 1, pan 0, unmuted; master volume 1; AGC on; gains 1. -/
def AudioMixer.resetState : AudioMixer :=
  { channels := List.replicate 8 { volume := 1, pan := 0, muted := false },
    masterVolume := 1, autoGainControl := true, currentGain := 1, targetGain := 1 }

/-- Scenario S6 input: every channel delivers `+5000`, so both pre-clamp
sums are `+40000`. -/
def c7Frame : List Int := [5000, 5000, 5000, 5000, 5000, 5000, 5000, 5000]

theorem c7_sums : AudioMixer.resetState.preClampSums c7Frame = (40000, 40000) := by
  norm_num [AudioMixer.preClampSums, AudioMixer.resetState, c7Frame, panGains,
    List.replicate, List.zip_cons_cons, List.foldl_cons, List.foldl_nil]

theorem c7_step : (AudioMixer.resetState.stepFrame c7Frame).1 = AudioMixer.resetState := by
  have hmix : AudioMixer.resetState.mixFrame c7Frame = (32767, 32767) := by
    unfold AudioMixer.mixFrame
    rw [c7_sums]
    norm_num [clampI16]
  have hmax : ¬ (max |((32767 : Int) : ℚ)| |((32767 : Int) : ℚ)| > 32767) := by norm_num
  simp only [AudioMixer.stepFrame, hmix]
  show (AudioMixer.resetState.applyAGC 32767 32767).1 = AudioMixer.resetState
  simp only [AudioMixer.applyAGC]
  rw [if_neg hmax]
  show ({ AudioMixer.resetState with
      targetGain := 1,
      currentGain := AudioMixer.resetState.currentGain +
        (1 - AudioMixer.resetState.currentGain) * (1 / 100) } : AudioMixer) =
    AudioMixer.resetState
  norm_num [AudioMixer.resetState]

theorem c7_run (n : Nat) :
    AudioMixer.resetState.runFrames (List.replicate n c7Frame) = AudioMixer.resetState := by
  induction n with
  | zero => rfl
  | succ n ih =>
    rw [List.replicate_succ]
    show AudioMixer.runFrames (AudioMixer.resetState.stepFrame c7Frame).1
      (List.replicate n c7Frame) = _
    rw [c7_step]
    exact ih

/-- **C7 counterexample.**  Scenario S6 with pre-clamp samples `+40000`:
the mixed frame peak `P = 40000` exceeds 32767, so the claim demands
`current_gain < 1.0` after one frame and `current_gain ≈ 32767/40000`
after 1000 frames.  The code clamps the frame to 32767 BEFORE the AGC
sees it, so the AGC target stays 1.0 and `current_gain` remains exactly
1.0 after one frame and after 1000 frames — far outside the claimed
`32767/40000 ± 0.001`.  (Every float value on this input path is exactly
representable, so the rational model agrees with the float code here.) -/
theorem audioMixer_agc_post_clamp_cex :
    AudioMixer.resetState.preClampSums c7Frame = (40000, 40000) ∧
    (40000 : ℚ) > 32767 ∧
    (AudioMixer.resetState.stepFrame c7Frame).1.currentGain = 1 ∧
    ¬ ((AudioMixer.resetState.stepFrame c7Frame).1.currentGain < 1) ∧
    (AudioMixer.resetState.runFrames (List.replicate 1000 c7Frame)).currentGain = 1 ∧
    ¬ (|(AudioMixer.resetState.runFrames (List.replicate 1000 c7Frame)).currentGain
        - 32767 / 40000| ≤ 1 / 1000) := by
  have hg1 : (AudioMixer.resetState.stepFrame c7Frame).1.currentGain = 1 := by
    rw [c7_step]
    rfl
  have hg2 : (AudioMixer.resetState.runFrames
      (List.replicate 1000 c7Frame)).currentGain = 1 := by
    rw [c7_run 1000]
    rfl
  refine ⟨c7_sums, by norm_num, hg1, ?_, hg2, ?_⟩
  · rw [hg1]
    norm_num
  · rw [hg2, not_le]
    have habs : |(1 : ℚ) - 32767 / 40000| = 1 - 32767 / 40000 := abs_of_nonneg (by norm_num)
    rw [habs]
    norm_num

theorem clampI16_bounds (x : ℚ) : -32768 ≤ clampI16 x ∧ clampI16 x ≤ 32767 := by
  unfold clampI16
  split
  · exact ⟨by norm_num, le_refl _⟩
  · split
    · exact ⟨le_refl _, by norm_num⟩
    · rename_i h1 h2
      rw [not_lt] at h1 h2
      split
      · rename_i h0
        constructor
        · have h3 : (0 : Int) ≤ ⌊x⌋ := Int.le_floor.mpr (by exact_mod_cast h0)
          omega
        · have hfl : (⌊x⌋ : ℚ) ≤ x := Int.floor_le x
          have h4 : (⌊x⌋ : ℚ) ≤ ((32767 : Int) : ℚ) := by push_cast; linarith
          exact_mod_cast h4
      · rename_i h0
        rw [not_le] at h0
        constructor
        · have hcl : x ≤ (⌈x⌉ : ℚ) := Int.le_ceil x
          have h4 : ((-32768 : Int) : ℚ) ≤ (⌈x⌉ : ℚ) := by push_cast; linarith
          exact_mod_cast h4
        · have h3 : ⌈x⌉ ≤ (0 : Int) := Int.ceil_le.mpr (by exact_mod_cast le_of_lt h0)
          omega

theorem mixFrame_bounds (m : AudioMixer) (samples : List Int) :
    -32768 ≤ (m.mixFrame samples).1 ∧ (m.mixFrame samples).1 ≤ 32767 ∧
    -32768 ≤ (m.mixFrame samples).2 ∧ (m.mixFrame samples).2 ≤ 32767 := by
  unfold AudioMixer.mixFrame
  exact ⟨(clampI16_bounds _).1, (clampI16_bounds _).2,
    (clampI16_bounds _).1, (clampI16_bounds _).2⟩

theorem int16_abs_le (c : Int) (h1 : -32768 ≤ c) (h2 : c ≤ 32767) :
    |(c : ℚ)| ≤ 32768 := by
  rw [abs_le]
  constructor
  · have : ((-32768 : Int) : ℚ) ≤ (c : ℚ) := by exact_mod_cast h1
    push_cast at this
    linarith
  · have : ((c : Int) : ℚ) ≤ ((32767 : Int) : ℚ) := by exact_mod_cast h2
    push_cast at this
    linarith

theorem applyAGC_gain_bounds (m : AudioMixer) (l r : Int)
    (hl1 : -32768 ≤ l) (hl2 : l ≤ 32767) (hr1 : -32768 ≤ r) (hr2 : r ≤ 32767)
    (hg1 : 32767 / 32768 ≤ m.currentGain) (hg2 : m.currentGain ≤ 1) :
    (m.applyAGC l r).1.autoGainControl = m.autoGainControl ∧
    32767 / 32768 ≤ (m.applyAGC l r).1.currentGain ∧
    (m.applyAGC l r).1.currentGain ≤ 1 := by
  have hpeak_le : max |(l : ℚ)| |(r : ℚ)| ≤ 32768 :=
    max_le (int16_abs_le l hl1 hl2) (int16_abs_le r hr1 hr2)
  have htarget :
      32767 / 32768 ≤ (if max |(l : ℚ)| |(r : ℚ)| > 32767
          then 32767 / max |(l : ℚ)| |(r : ℚ)| else 1) ∧
      (if max |(l : ℚ)| |(r : ℚ)| > 32767
          then 32767 / max |(l : ℚ)| |(r : ℚ)| else 1) ≤ 1 := by
    split
    · rename_i hgt
      constructor
      · rw [div_le_div_iff (by norm_num) (by linarith)]
        linarith
      · rw [div_le_one (by linarith)]
        linarith
    · exact ⟨by norm_num, le_refl _⟩
  refine ⟨rfl, ?_, ?_⟩
  · show 32767 / 32768 ≤ m.currentGain +
      ((if max |(l : ℚ)| |(r : ℚ)| > 32767
          then 32767 / max |(l : ℚ)| |(r : ℚ)| else 1) - m.currentGain) * (1 / 100)
    obtain ⟨ht1, ht2⟩ := htarget
    linarith
  · show m.currentGain +
      ((if max |(l : ℚ)| |(r : ℚ)| > 32767
          then 32767 / max |(l : ℚ)| |(r : ℚ)| else 1) - m.currentGain) * (1 / 100) ≤ 1
    obtain ⟨ht1, ht2⟩ := htarget
    linarith

theorem stepFrame_gain_bounds (m : AudioMixer) (samples : List Int)
    (hagc : m.autoGainControl = true)
    (hg1 : 32767 / 32768 ≤ m.currentGain) (hg2 : m.currentGain ≤ 1) :
    (m.stepFrame samples).1.autoGainControl = true ∧
    32767 / 32768 ≤ (m.stepFrame samples).1.currentGain ∧
    (m.stepFrame samples).1.currentGain ≤ 1 := by
  obtain ⟨hb1, hb2, hb3, hb4⟩ := mixFrame_bounds m samples
  have hagcres := applyAGC_gain_bounds m (m.mixFrame samples).1 (m.mixFrame samples).2
    hb1 hb2 hb3 hb4 hg1 hg2
  unfold AudioMixer.stepFrame
  rw [hagc]
  rw [if_pos rfl]
  exact ⟨by rw [hagcres.1, hagc], hagcres.2.1, hagcres.2.2⟩

theorem agc_run_bounds (frames : List (List Int)) :
    ∀ (m : AudioMixer), m.autoGainControl = true →
      32767 / 32768 ≤ m.currentGain → m.currentGain ≤ 1 →
      32767 / 32768 ≤ (m.runFrames frames).currentGain ∧
      (m.runFrames frames).currentGain ≤ 1 := by
  induction frames with
  | nil => exact fun m _ h1 h2 => ⟨h1, h2⟩
  | cons f fs ih =>
    intro m hagc h1 h2
    obtain ⟨sa, sb, sc⟩ := stepFrame_gain_bounds m f hagc h1 h2
    exact ih (m.stepFrame f).1 sa sb sc

/-- **C7 (amended).**  With auto gain control enabled, the gain update
uses the POST-CLAMP frame: `current_gain` moves by factor 0.01 toward
`32767 / peak` where `peak` is the peak of the already-clamped int16
frame (toward 1.0 whenever that peak is at most 32767).  Every mixed
frame is clamped into `[-32768, 32767]` before the AGC sees it, so that
peak never exceeds 32768; consequently, starting from reset
(`current_gain = 1`), `current_gain` stays inside
`[32767/32768, 1]` forever — for a +40000 pre-clamp frame it stays at
1.0 — and can never come within 0.001 of `32767/40000`. -/
theorem audioMixer_agc_spec :
    (∀ (m : AudioMixer) (l r : Int),
      (m.applyAGC l r).1.currentGain =
        m.currentGain +
          ((if max |(l : ℚ)| |(r : ℚ)| > 32767
              then 32767 / max |(l : ℚ)| |(r : ℚ)| else 1)
            - m.currentGain) * (1 / 100)) ∧
    (∀ (m : AudioMixer) (samples : List Int),
      -32768 ≤ (m.mixFrame samples).1 ∧ (m.mixFrame samples).1 ≤ 32767 ∧
      -32768 ≤ (m.mixFrame samples).2 ∧ (m.mixFrame samples).2 ≤ 32767) ∧
    (∀ (frames : List (List Int)),
      32767 / 32768 ≤ (AudioMixer.resetState.runFrames frames).currentGain ∧
      (AudioMixer.resetState.runFrames frames).currentGain ≤ 1) ∧
    (32767 / 40000 + 1 / 1000 : ℚ) < 32767 / 32768 := by
  refine ⟨fun m l r => rfl, mixFrame_bounds, fun frames => ?_, by norm_num⟩
  exact agc_run_bounds frames AudioMixer.resetState rfl (by norm_num [AudioMixer.resetState])
    (by norm_num [AudioMixer.resetState])

end SANO
